import Mathlib

/-!
Verification development for the kernel CI build pipeline
(`src/ci_core_rs/src/build.rs`, function `handle_build`).

The pipeline is embedded shallowly: external effects (process invocations,
filesystem mutations, warnings, notifications) are recorded as an ordered
list of `Event`s, and the outside world (command exit statuses, captured
stdout, file existence, the current date) is an oracle `World`.  Each stage
of `handle_build` is a pure function from the project profile, the branch
label and the `World` to a pair of the emitted event list and an optional
abort message (`none` means the stage completed).  Stages are sequenced with
`seq`, which stops at the first abort, exactly like the `?` operator in the
Rust source.

The helpers `run_cmd` and `run_cmd_with_env` live in `utils.rs`, which is
not part of the sources under inspection.  Modelled from the spec: a
non-capturing invocation fails fast on a non-zero exit status (it surfaces
as an abort), while a capturing invocation returns the captured stdout and
falls back to an absent value when the output is unavailable.
-/

/-! ## Generic string and list helpers (character-list based, executable) -/

/-- Boolean prefix test on character lists. -/
def isPrefixL : List Char → List Char → Bool
  | [], _ => true
  | _ :: _, [] => false
  | a :: xs, b :: ys => a == b && isPrefixL xs ys

/-- Boolean substring test on character lists. -/
def containsSub (pat : List Char) : List Char → Bool
  | [] => isPrefixL pat []
  | c :: rest => isPrefixL pat (c :: rest) || containsSub pat rest

/-- Replace the first occurrence of `pat` by `repl`, as `sed s/pat/repl/`
does on a single line. -/
def replaceFirst (pat repl : List Char) : List Char → List Char
  | [] => []
  | c :: rest =>
    if isPrefixL pat (c :: rest) then repl ++ (c :: rest).drop pat.length
    else c :: replaceFirst pat repl rest

/-- Whitespace trim on character lists (model of Rust `str::trim`). -/
def trimL (l : List Char) : List Char :=
  ((l.dropWhile Char.isWhitespace).reverse.dropWhile Char.isWhitespace).reverse

/-- Whitespace trim on strings. -/
def trimS (s : String) : String := ⟨trimL s.data⟩

/-- ASCII uppercasing (model of Rust `str::to_uppercase`). -/
def upper (s : String) : String := ⟨s.data.map Char.toUpper⟩

/-- Split a character list at every occurrence of the separator, keeping
empty segments, as Rust `str::split(c)` does.  The result is never empty. -/
def splitOnChar (c : Char) : List Char → List (List Char)
  | [] => [[]]
  | x :: xs =>
    match splitOnChar c xs with
    | [] => [[]]
    | y :: ys => if x == c then [] :: y :: ys else (x :: y) :: ys

/-- Model of `PathBuf::join`: an absolute right operand replaces the left,
an empty right operand leaves a trailing separator, otherwise a separator
is inserted unless already present. -/
def pathJoin (a b : String) : String :=
  if b.data = [] then a ++ "/"
  else if b.data.head? = some '/' then b
  else if a.data.getLast? = some '/' then a ++ b
  else a ++ "/" ++ b

/-- Specification-side helper: prepend each segment of `segs`, in order,
in front of `path`, separated by colons. -/
def prependAll (segs : List String) (path : String) : String :=
  segs.foldr (fun s acc => s ++ ":" ++ acc) path

/-! ## Data model -/

/-- One observable side effect of the pipeline. -/
inductive Event where
  | cmd (args : List String) (dir : Option String)
  | cmdEnv (args : List String) (dir : Option String)
  | removeDirAll (path : String)
  | createDirAll (path : String)
  | appendFile (path : String) (lines : List String)
  | writeFile (path : String) (content : String)
  | copyFile (src dst : String)
  | warn (msg : String)
  | notify (tag : String)
  deriving DecidableEq, Repr

/-- The project profile, with the fields `build.rs` reads from
`ProjectConfig` (the struct itself lives in `config.rs`; optional fields
default to absent exactly as `serde` deserialization does).  The source
names the two shortened fields `toolchain_path_prefix` and
`zip_name_prefix`. -/
structure ProjectConfig where
  defconfig : String
  localversion_base : String
  repo : String
  toolchain_urls : Option (List String) := none
  toolchain_path_pre : Option String := none
  toolchain_path_exports : Option (List String) := none
  extra_host_env : Option Bool := none
  disable_security : Option (List String) := none
  lto : Option String := none
  version_method : Option String := none
  anykernel_repo : Option String := none
  anykernel_branch : Option String := none
  zip_name_pre : Option String := none
  deriving Repr

/-- The outside world as the pipeline observes it: which files exist,
which commands succeed, what captured commands print, and the inherited
environment. -/
structure World where
  kernelSourceExists : Bool
  defconfigExists : Bool
  tcDownloadExists : Bool
  ak3Exists : Bool
  imageExists : Bool
  zipExists : Bool
  cmdOk : List String → Bool
  cmdOut : List String → String
  envPATH : String
  currentDir : String
  dateStr : String

/-- Sequencing of two stage results: the second runs only when the first
did not abort, and the event lists concatenate. -/
def seq (a b : List Event × Option String) : List Event × Option String :=
  match a.2 with
  | some e => (a.1, some e)
  | none => (a.1 ++ b.1, b.2)

/-- Run a list of commands in order, fail-fast, in a common directory.
A failing command is still recorded as invoked before the abort. -/
def runCmds (w : World) (dir : Option String) : List (List String) → List Event × Option String
  | [] => ([], none)
  | c :: rest =>
    if w.cmdOk c then
      let r := runCmds w dir rest
      (Event.cmd c dir :: r.1, r.2)
    else ([Event.cmd c dir], some "command failed")

/-! ## Pipeline stages, translated from `handle_build` -/

def tcDir : String := "toolchain_download"

def ksdir : Option String := some "kernel_source"

/-- The toolchain extraction shell script (string literal from the source). -/
def extract_script : String :=
  "\nset -e\nif ls *.tar.gz.[0-9]* 1> /dev/null 2>&1; then\n    cat *.tar.gz.* | tar -zxf - --warning=no-unknown-keyword -C ..\nelif ls *part_aa* 1> /dev/null 2>&1 || ls *_aa.tar.gz 1> /dev/null 2>&1 || ls *.tar.gz.aa 1> /dev/null 2>&1; then\n    cat *.tar.gz | tar -zxf - --warning=no-unknown-keyword -C ..\nelif ls *.tar.gz 1> /dev/null 2>&1; then\n    for tarball in *.tar.gz; do\n        tar -zxf \"$tarball\" --warning=no-unknown-keyword -C ..\n    done\nfi\n"

/-- Step 1, toolchain provisioning: wipe and recreate the scratch download
directory, download every URL in order, extract, delete the scratch
directory. Runs only when the profile carries a URL list (even an empty
one). -/
def toolchainStage (proj : ProjectConfig) (w : World) : List Event × Option String :=
  match proj.toolchain_urls with
  | none => ([], none)
  | some urls =>
    let wipe := if w.tcDownloadExists then [Event.removeDirAll tcDir] else []
    let head := wipe ++ [Event.createDirAll tcDir]
    let r := runCmds w (some tcDir) (urls.map (fun u => ["wget", "-q", u]))
    match r.2 with
    | some e => (head ++ r.1, some e)
    | none =>
      let ex := ["bash", "-c", extract_script]
      if w.cmdOk ex then
        (head ++ r.1 ++ [Event.cmd ex (some tcDir), Event.removeDirAll tcDir], none)
      else (head ++ r.1 ++ [Event.cmd ex (some tcDir)], some "command failed")

/-- Step 2, search-path composition (the PATH entry of the composed
environment). -/
def composedPath (proj : ProjectConfig) (w : World) : String :=
  let toolchain_base := pathJoin w.currentDir (proj.toolchain_path_pre.getD "")
  match proj.toolchain_path_exports with
  | some exports => exports.foldl (fun acc e => pathJoin toolchain_base e ++ ":" ++ acc) w.envPATH
  | none =>
    if (proj.toolchain_path_pre.getD "") ≠ "" then
      pathJoin toolchain_base "bin" ++ ":" ++ w.envPATH
    else w.envPATH

/-- The `curl ... | bash -s <arg>` one-liner used to install a variant. -/
def setupPipe (url arg : String) : String :=
  "curl -LSs \x27" ++ url ++ "\x27 | bash -s " ++ arg

/-- Setup-script table for the non-wildksu variants. -/
def setup_url (branch : String) : Option (String × String) :=
  if branch == "resukisu" then
    some ("https://raw.githubusercontent.com/ReSukiSU/ReSukiSU/main/kernel/setup.sh", "builtin")
  else if branch == "mksu" then
    some ("https://raw.githubusercontent.com/5ec1cff/KernelSU/main/kernel/setup.sh", "-")
  else if branch == "ksu" then
    some ("https://raw.githubusercontent.com/tiann/KernelSU/main/kernel/setup.sh", "-")
  else none

/-- The eleven external commands of the wildksu integration, in program
order: setup script, SUSFS clone, three copies, main patch, hook download,
hook patch, and the three sed edits relocating the manual hook. -/
def wildksuCmds : List (List String) :=
  [ ["bash", "-c", "curl -LSs \x27https://raw.githubusercontent.com/WildKernels/Wild_KSU/wild/kernel/setup.sh\x27 | bash -s wild"],
    ["git", "clone", "-b", "gki-android13-5.15", "--depth=1", "https://gitlab.com/simonpunk/susfs4ksu.git", "susfs4ksu"],
    ["bash", "-c", "cp susfs4ksu/kernel_patches/50_add_susfs_in_gki-android13-5.15.patch ."],
    ["bash", "-c", "cp -rv susfs4ksu/kernel_patches/fs/* fs/"],
    ["bash", "-c", "cp -rv susfs4ksu/kernel_patches/include/linux/* include/linux/"],
    ["bash", "-c", "patch -p1 --fuzz=3 < 50_add_susfs_in_gki-android13-5.15.patch"],
    ["curl", "-L", "-o", "manual-hook.patch", "https://github.com/SukiSU-Ultra/SukiSU_patch/raw/83aa64b7548890bb1f2eff6c990c03a1802df27b/hooks/scope_min_manual_hooks_v1.6.patch"],
    ["bash", "-c", "patch -p1 --fuzz=3 < manual-hook.patch"],
    ["sed", "-i", "/if (flags & CLONE_NEWNS)/d", "fs/namespace.c"],
    ["sed", "-i", "/copy_flags |= CL_COPY_MNT_NS/d", "fs/namespace.c"],
    ["sed", "-i", "s/copy_flags = CL_COPY_UNBINDABLE | CL_EXPIRE;/& if (flags \\& CLONE_NEWNS) copy_flags |= CL_COPY_MNT_NS;/", "fs/namespace.c"] ]

def defconfigPath (proj : ProjectConfig) : String :=
  "kernel_source/arch/arm64/configs/" ++ proj.defconfig

def wildksuWarnMsg (proj : ProjectConfig) : String :=
  "Warning: Defconfig not found at " ++ defconfigPath proj ++ ", skipping config append."

/-- Step 3, wildksu branch: run the integration commands fail-fast, then
append the two disable directives to the arch defconfig when it exists,
else emit a non-fatal warning. -/
def wildksuStage (proj : ProjectConfig) (w : World) : List Event × Option String :=
  seq (runCmds w ksdir wildksuCmds)
    (if w.defconfigExists then
      ([Event.appendFile (defconfigPath proj)
          ["CONFIG_KSU_KPROBES_HOOK=n", "CONFIG_KSU_SUSFS_SUS_SU=n"]], none)
     else ([Event.warn (wildksuWarnMsg proj)], none))

/-- Step 3, variant integration dispatch on the branch label. -/
def integratorStage (proj : ProjectConfig) (branch : String) (w : World) :
    List Event × Option String :=
  if branch == "wildksu" then wildksuStage proj w
  else
    match setup_url branch with
    | some (url, arg) => runCmds w ksdir [["bash", "-c", setupPipe url arg]]
    | none => ([], none)

/-- Step 4, kernel version query (capturing invocation, never fatal). -/
def versionProbe : List Event × Option String :=
  ([Event.cmd ["make", "kernelversion"] ksdir], none)

/-- Resolved kernel version string: captured stdout, trimmed, falling back
to the literal unknown. -/
def kernel_version (w : World) : String :=
  trimS (if w.cmdOk ["make", "kernelversion"] then w.cmdOut ["make", "kernelversion"] else "unknown")

/-- The target SoC token: the second `_`-separated segment of the project
key, falling back to the literal unknown. -/
def target_soc (key : String) : String :=
  match (splitOnChar '_' key.data)[1]? with
  | some seg => ⟨seg⟩
  | none => "unknown"

/-- Step 5, the accumulated make arguments before the defconfig
invocation. -/
def make_args (key : String) (w : World) : List String :=
  ["O=out", "ARCH=arm64", "LLVM=1", "LLVM_IAS=1", "TARGET_SOC=" ++ target_soc key] ++
  [if w.cmdOk ["which", "ccache"] then "CC=ccache clang" else "CC=clang"]

/-- Step 5, compiler-cache probe and configuration. -/
def ccacheStage (w : World) : List Event × Option String :=
  if w.cmdOk ["which", "ccache"] then
    ([Event.cmd ["which", "ccache"] none, Event.cmd ["ccache", "-M", "5G"] none],
     if w.cmdOk ["ccache", "-M", "5G"] then none else some "command failed")
  else ([Event.cmd ["which", "ccache"] none], none)

/-- Step 6, materialize the default configuration (first build-tool
invocation with the composed environment). -/
def defconfigStage (proj : ProjectConfig) (key : String) (w : World) :
    List Event × Option String :=
  let c := ["make"] ++ make_args key w ++ [proj.defconfig]
  ([Event.cmdEnv c ksdir], if w.cmdOk c then none else some "command failed")

/-- The fixed baseline of options every run disables. -/
def baselineDisables : List String :=
  ["UH", "RKP", "KDP", "SECURITY_DEFEX", "INTEGRITY", "FIVE", "TRIM_UNUSED_KSYMS"]

/-- Step 7, the full ordered disable batch: baseline, then the profile
additions, then (for wildksu) the two forced entries. -/
def disable_configs (proj : ProjectConfig) (branch : String) : List String :=
  baselineDisables ++ proj.disable_security.getD [] ++
  (if branch == "wildksu" then ["KSU_KPROBES_HOOK", "KSU_SUSFS_SUS_SU"] else [])

def disableCmds (cfgs : List String) : List (List String) :=
  cfgs.map (fun c => ["scripts/config", "--file", "out/.config", "--disable", c])

def ltoThinCmd : List String :=
  ["scripts/config", "--file", "out/.config", "-e", "LTO_CLANG_THIN", "-d", "LTO_CLANG_FULL"]

def ltoFullCmd : List String :=
  ["scripts/config", "--file", "out/.config", "-e", "LTO_CLANG_FULL", "-d", "LTO_CLANG_THIN"]

/-- Step 7, link-time-optimization option pairs. -/
def ltoStage (proj : ProjectConfig) (w : World) : List Event × Option String :=
  match proj.lto with
  | some l =>
    if l == "thin" then runCmds w ksdir [ltoThinCmd]
    else if l == "full" then runCmds w ksdir [ltoFullCmd]
    else ([], none)
  | none => ([], none)

def enableManualHookCmd : List String :=
  ["scripts/config", "--file", "out/.config", "-e", "CONFIG_KSU_MANUAL_HOOK"]

def enableSusfsCmd : List String :=
  ["scripts/config", "--file", "out/.config", "-e", "CONFIG_SUSFS"]

/-- Step 7, the Config Mutator: for wildksu the two explicit force-enables
run first, then the ordered disable batch, then the LTO settings. -/
def configMutatorStage (proj : ProjectConfig) (branch : String) (w : World) :
    List Event × Option String :=
  seq
    (if branch == "wildksu" then
      if w.cmdOk enableManualHookCmd then
        if w.cmdOk enableSusfsCmd then
          ([Event.cmd enableManualHookCmd ksdir, Event.cmd enableSusfsCmd ksdir], none)
        else ([Event.cmd enableManualHookCmd ksdir, Event.cmd enableSusfsCmd ksdir],
              some "command failed")
      else ([Event.cmd enableManualHookCmd ksdir], some "command failed")
     else ([], none))
    (seq (runCmds w ksdir (disableCmds (disable_configs proj branch))) (ltoStage proj w))

/-- The fixed suffix table keyed by branch label. -/
def variant_suffix (branch : String) : String :=
  if branch == "main" || branch == "lkm" then "LKM"
  else if branch == "ksu" then "KSU"
  else if branch == "mksu" then "MKSU"
  else if branch == "resukisu" || branch == "sukisuultra" then "ReSuki"
  else if branch == "wildksu" then "WildKSU"
  else upper branch

/-- The build identifier. -/
def localversion (proj : ProjectConfig) (branch : String) : String :=
  proj.localversion_base ++ "-" ++ variant_suffix branch

/-- Resolved short commit hash with its literal fallback. -/
def short_sha (w : World) : String :=
  if w.cmdOk ["git", "rev-parse", "--short", "HEAD"] then
    w.cmdOut ["git", "rev-parse", "--short", "HEAD"]
  else "unknown"

/-- Whether the profile selects file-based version stamping. -/
def file_method (proj : ProjectConfig) : Bool :=
  proj.version_method.getD "param" == "file"

/-- Step 8, localversion handling: query the commit hash, and for the
file-based method write the version file. -/
def localversionStage (proj : ProjectConfig) (branch : String) (w : World) :
    List Event × Option String :=
  ([Event.cmd ["git", "rev-parse", "--short", "HEAD"] ksdir] ++
   (if file_method proj then
     [Event.writeFile "kernel_source/localversion"
        (localversion proj branch ++ "-g" ++ short_sha w)]
    else []), none)

def jobsArg (w : World) : String := "-j" ++ trimS (w.cmdOut ["nproc"])

/-- The make arguments of the image build: the accumulated list plus, for
the argument-based stamping method, the empty localversion override. -/
def make_args_final (proj : ProjectConfig) (key : String) (w : World) : List String :=
  make_args key w ++ (if file_method proj then [] else ["LOCALVERSION="])

def buildCmdArgs (proj : ProjectConfig) (key : String) (w : World) : List String :=
  ["make", jobsArg w] ++ make_args_final proj key w

/-- Step 9, the image build (second build-tool invocation with the
composed environment), preceded by the processor-count query and followed,
for the file method, by resetting the version file. -/
def buildStage (proj : ProjectConfig) (key : String) (w : World) :
    List Event × Option String :=
  if w.cmdOk ["nproc"] then
    let bc := buildCmdArgs proj key w
    if w.cmdOk bc then
      ([Event.cmd ["nproc"] none, Event.cmdEnv bc ksdir] ++
       (if file_method proj then [Event.writeFile "kernel_source/localversion" ""] else []),
       none)
    else ([Event.cmd ["nproc"] none, Event.cmdEnv bc ksdir], some "command failed")
  else ([Event.cmd ["nproc"] none], some "nproc output unavailable")

def ak3_repo (proj : ProjectConfig) : String :=
  proj.anykernel_repo.getD "https://github.com/YuzakiKokuban/AnyKernel3.git"

def ak3_branch (proj : ProjectConfig) : String :=
  proj.anykernel_branch.getD "master"

/-- The localversion with every leading dash stripped
(`trim_start_matches` in the source). -/
def clean_localversion (proj : ProjectConfig) (branch : String) : String :=
  ⟨(localversion proj branch).data.dropWhile (fun c => c == '-')⟩

/-- The deterministic archive name. -/
def final_zip_name (proj : ProjectConfig) (branch : String) (w : World) : String :=
  (proj.zip_name_pre.getD "Kernel") ++ "-" ++ kernel_version w ++ "-" ++
  clean_localversion proj branch ++ "-" ++ w.dateStr ++ ".zip"

def imagePath : String := "kernel_source/out/arch/arm64/boot/Image"

def zipCmdArgs (proj : ProjectConfig) (branch : String) (w : World) : List String :=
  ["zip", "-r9", "../" ++ final_zip_name proj branch w, ".",
   "-x", ".git*", "-x", ".github*", "-x", "README.md", "-x", "LICENSE",
   "-x", "*.gitignore", "-x", "patch_linux", "-x", "tools/boot.img.lz4",
   "-x", "tools/libmagiskboot.so"]

/-- Step 10, packaging: recreate the template checkout, require the built
image, copy it in and compress. -/
def packageStage (proj : ProjectConfig) (branch : String) (w : World) :
    List Event × Option String :=
  let pre := if w.ak3Exists then [Event.removeDirAll "AnyKernel3"] else []
  let cloneC := ["git", "clone", ak3_repo proj, "-b", ak3_branch proj, "AnyKernel3"]
  if w.cmdOk cloneC then
    if w.imageExists then
      let zc := zipCmdArgs proj branch w
      (pre ++ [Event.cmd cloneC none, Event.copyFile imagePath "AnyKernel3/Image",
               Event.cmd zc (some "AnyKernel3")],
       if w.cmdOk zc then none else some "command failed")
    else (pre ++ [Event.cmd cloneC none], some "Image not found")
  else (pre ++ [Event.cmd cloneC none], some "command failed")

def release_tag (proj : ProjectConfig) (branch : String) (w : World) : String :=
  (proj.zip_name_pre.getD "Kernel") ++ "-" ++ variant_suffix branch ++ "-" ++ w.dateStr

def release_title (proj : ProjectConfig) (branch : String) (w : World) : String :=
  (proj.zip_name_pre.getD "Kernel") ++ " " ++ variant_suffix branch ++
  " Build (" ++ w.dateStr ++ ")"

def release_notes (branch : String) (w : World) : String :=
  "Automated build for " ++ branch ++ "\nKernel Version: " ++ kernel_version w

def ghCmd (proj : ProjectConfig) (branch : String) (w : World) : List String :=
  ["gh", "release", "create", release_tag proj branch w, final_zip_name proj branch w,
   "--repo", proj.repo, "--title", release_title proj branch w,
   "--notes", release_notes branch w]

/-- Step 11, optional release and notification; the archive must exist. -/
def releaseStage (proj : ProjectConfig) (branch : String) (do_release : Bool)
    (w : World) : List Event × Option String :=
  if do_release then
    if w.zipExists then
      ([Event.cmd (ghCmd proj branch w) none] ++
       (if w.cmdOk (ghCmd proj branch w) then [Event.notify (release_tag proj branch w)] else []),
       if w.cmdOk (ghCmd proj branch w) then none else some "command failed")
    else ([], some "Final zip not found")
  else ([], none)

/-- The whole pipeline, the shallow embedding of `handle_build`. -/
def handle_build (proj : ProjectConfig) (project_key branch : String)
    (do_release : Bool) (w : World) : List Event × Option String :=
  if w.kernelSourceExists then
    seq (toolchainStage proj w)
    (seq (integratorStage proj branch w)
    (seq versionProbe
    (seq (ccacheStage w)
    (seq (defconfigStage proj project_key w)
    (seq (configMutatorStage proj branch w)
    (seq (localversionStage proj branch w)
    (seq (buildStage proj project_key w)
    (seq (packageStage proj branch w)
         (releaseStage proj branch do_release w)))))))))
  else ([], some "Kernel source not found at ./kernel_source")

/-! ## Text-edit (sed) semantics for the wildksu hook relocation -/

/-- The verbatim anchor line fragment matched by the third sed command. -/
def anchor_line : List Char := "copy_flags = CL_COPY_UNBINDABLE | CL_EXPIRE;".data

/-- The guarded flag-accumulation clause the third sed command appends
after the matched anchor text. -/
def hook_clause : List Char :=
  " if (flags & CLONE_NEWNS) copy_flags |= CL_COPY_MNT_NS;".data

/-- The literal matched by the first sed delete command. -/
def sed1_pat : List Char := "if (flags & CLONE_NEWNS)".data

/-- The literal matched by the second sed delete command. -/
def sed2_pat : List Char := "copy_flags |= CL_COPY_MNT_NS".data

/-- Semantics of `sed -i /pat/d file`: delete every line containing the
literal pattern. -/
def sedDeleteMatching (pat : List Char) (file : List (List Char)) : List (List Char) :=
  file.filter (fun l => !(containsSub pat l))

/-- Semantics of `sed -i s/pat/repl/ file`: replace the first occurrence
of the literal pattern on each line. -/
def sedSubstFirst (pat repl : List Char) (file : List (List Char)) : List (List Char) :=
  file.map (replaceFirst pat repl)

/-- The combined effect of the three wildksu text edits on
`fs/namespace.c`. -/
def relocationEdit (file : List (List Char)) : List (List Char) :=
  sedSubstFirst anchor_line (anchor_line ++ hook_clause)
    (sedDeleteMatching sed2_pat (sedDeleteMatching sed1_pat file))

/-! ## Configuration-edit extraction and net configured state -/

/-- Normalize an option name the way `scripts/config` does: strip a
leading CONFIG_ if present. -/
def normOpt (s : String) : String :=
  if isPrefixL "CONFIG_".data s.data then ⟨s.data.drop 7⟩ else s

/-- Parse the enable and disable directives of one `scripts/config`
argument tail. -/
def parseEdits : List String → List (String × Bool)
  | "-e" :: n :: rest => (normOpt n, true) :: parseEdits rest
  | "--enable" :: n :: rest => (normOpt n, true) :: parseEdits rest
  | "-d" :: n :: rest => (normOpt n, false) :: parseEdits rest
  | "--disable" :: n :: rest => (normOpt n, false) :: parseEdits rest
  | _ :: rest => parseEdits rest
  | [] => []

/-- The configuration edits an event performs on the generated
`.config`. -/
def eventEdits : Event → List (String × Bool)
  | .cmd ("scripts/config" :: rest) _ => parseEdits rest
  | _ => []

/-- All configuration edits of a trace, in order. -/
def traceEdits (tr : List Event) : List (String × Bool) :=
  (tr.map eventEdits).flatten

/-- The net configured value of an option after an ordered edit list
(later edits win). -/
def applyEdits (edits : List (String × Bool)) (n : String) : Option Bool :=
  edits.foldl (fun acc e => if e.1 == n then some e.2 else acc) none

/-! ## Trace predicates -/

/-- An invocation of the build tool through `run_cmd_with_env`. -/
def isEnvMake : Event → Bool
  | .cmdEnv args _ => args.head? == some "make"
  | _ => false

/-- Any invocation whose command is `make`, capturing or not, with or
without the composed environment. -/
def isMakeInvocation : Event → Bool
  | .cmd args _ => args.head? == some "make"
  | .cmdEnv args _ => args.head? == some "make"
  | _ => false

/-- A Config Mutator edit of the generated `.config`. -/
def isConfigEdit : Event → Bool
  | .cmd args _ => args.head? == some "scripts/config"
  | _ => false

/-! ## Event lists of each stage on a fully successful run -/

def toolchainEventsOk (proj : ProjectConfig) (w : World) : List Event :=
  match proj.toolchain_urls with
  | none => []
  | some urls =>
    (if w.tcDownloadExists then [Event.removeDirAll tcDir] else []) ++
    [Event.createDirAll tcDir] ++
    urls.map (fun u => Event.cmd ["wget", "-q", u] (some tcDir)) ++
    [Event.cmd ["bash", "-c", extract_script] (some tcDir), Event.removeDirAll tcDir]

def wildksuEventsOk (proj : ProjectConfig) (w : World) : List Event :=
  wildksuCmds.map (fun c => Event.cmd c ksdir) ++
  (if w.defconfigExists then
    [Event.appendFile (defconfigPath proj)
       ["CONFIG_KSU_KPROBES_HOOK=n", "CONFIG_KSU_SUSFS_SUS_SU=n"]]
   else [Event.warn (wildksuWarnMsg proj)])

def integratorEventsOk (proj : ProjectConfig) (branch : String) (w : World) : List Event :=
  if branch == "wildksu" then wildksuEventsOk proj w
  else
    match setup_url branch with
    | some (url, arg) => [Event.cmd ["bash", "-c", setupPipe url arg] ksdir]
    | none => []

def ccacheEventsOk : List Event :=
  [Event.cmd ["which", "ccache"] none, Event.cmd ["ccache", "-M", "5G"] none]

def ltoEventsOk (proj : ProjectConfig) : List Event :=
  match proj.lto with
  | some l =>
    if l == "thin" then [Event.cmd ltoThinCmd ksdir]
    else if l == "full" then [Event.cmd ltoFullCmd ksdir]
    else []
  | none => []

def mutatorEventsOk (proj : ProjectConfig) (branch : String) : List Event :=
  (if branch == "wildksu" then
    [Event.cmd enableManualHookCmd ksdir, Event.cmd enableSusfsCmd ksdir]
   else []) ++
  (disableCmds (disable_configs proj branch)).map (fun c => Event.cmd c ksdir) ++
  ltoEventsOk proj

def localversionEventsOk (proj : ProjectConfig) (branch : String) (w : World) : List Event :=
  [Event.cmd ["git", "rev-parse", "--short", "HEAD"] ksdir] ++
  (if file_method proj then
    [Event.writeFile "kernel_source/localversion"
       (localversion proj branch ++ "-g" ++ short_sha w)]
   else [])

def buildEventsOk (proj : ProjectConfig) (key : String) (w : World) : List Event :=
  [Event.cmd ["nproc"] none, Event.cmdEnv (buildCmdArgs proj key w) ksdir] ++
  (if file_method proj then [Event.writeFile "kernel_source/localversion" ""] else [])

def packageEventsOk (proj : ProjectConfig) (branch : String) (w : World) : List Event :=
  (if w.ak3Exists then [Event.removeDirAll "AnyKernel3"] else []) ++
  [Event.cmd ["git", "clone", ak3_repo proj, "-b", ak3_branch proj, "AnyKernel3"] none,
   Event.copyFile imagePath "AnyKernel3/Image",
   Event.cmd (zipCmdArgs proj branch w) (some "AnyKernel3")]

def releaseEventsOk (proj : ProjectConfig) (branch : String) (do_release : Bool)
    (w : World) : List Event :=
  if do_release then
    [Event.cmd (ghCmd proj branch w) none, Event.notify (release_tag proj branch w)]
  else []

/-! ## Concrete sample inputs used by witnesses and counterexamples -/

/-- A sample profile matching the end-to-end scenario of the spec. -/
def sampleProj : ProjectConfig :=
  { defconfig := "socA_defconfig"
    localversion_base := "-MyKernel"
    repo := "org/repo" }

/-- A sample profile whose URL list is present but empty. -/
def emptyUrlProj : ProjectConfig :=
  { defconfig := "socA_defconfig"
    localversion_base := "-MyKernel"
    repo := "org/repo"
    toolchain_urls := some [] }

/-- A sample profile with one extra disable entry and a thin LTO mode. -/
def richProj : ProjectConfig :=
  { defconfig := "socA_defconfig"
    localversion_base := "-MyKernel"
    repo := "org/repo"
    disable_security := some ["CC_WERROR"]
    lto := some "thin" }

/-- A world where every command succeeds and every expected file exists. -/
def allOkWorld : World :=
  { kernelSourceExists := true
    defconfigExists := true
    tcDownloadExists := false
    ak3Exists := false
    imageExists := true
    zipExists := true
    cmdOk := fun _ => true
    cmdOut := fun _ => ""
    envPATH := "/usr/bin"
    currentDir := "/work"
    dateStr := "20260101-0101" }

/-- The all-success world with a missing arch defconfig file. -/
def noDefconfigWorld : World :=
  { allOkWorld with defconfigExists := false }

/-- File-write style events: only the wildksu defconfig append uses this
constructor. -/
def isAppend : Event → Bool
  | .appendFile _ _ => true
  | _ => false

/-! ## Helper lemmas about sequencing and command batches -/

theorem seq_of_ok {a b : List Event × Option String} (h : a.2 = none) :
    seq a b = (a.1 ++ b.1, b.2) := by
  simp [seq, h]

theorem seq_snd_isSome_left {a b : List Event × Option String}
    (h : a.2.isSome = true) : ((seq a b).2).isSome = true := by
  cases ha : a.2 with
  | none => rw [ha] at h; simp at h
  | some e => simp [seq, ha]

theorem seq_snd_isSome_right {a b : List Event × Option String}
    (h : b.2.isSome = true) : ((seq a b).2).isSome = true := by
  cases ha : a.2 with
  | none => simpa [seq, ha] using h
  | some e => simp [seq, ha]

theorem runCmds_ok {w : World} (hok : ∀ c, w.cmdOk c = true) (dir : Option String)
    (cmds : List (List String)) :
    runCmds w dir cmds = (cmds.map (fun c => Event.cmd c dir), none) := by
  induction cmds with
  | nil => rfl
  | cons c rest ih => simp [runCmds, hok, ih]

theorem runCmds_fail {w : World} {dir : Option String} {c : List String}
    {cmds : List (List String)} (hc : c ∈ cmds) (hf : w.cmdOk c = false) :
    ((runCmds w dir cmds).2).isSome = true := by
  induction cmds with
  | nil => cases hc
  | cons d rest ih =>
    rcases List.mem_cons.mp hc with h | h
    · subst h; simp [runCmds, hf]
    · by_cases hd : w.cmdOk d = true
      · simp [runCmds, hd, ih h]
      · simp [runCmds, Bool.eq_false_iff.mpr hd]

/-! ## Stage shape lemmas on fully successful runs -/

theorem toolchainStage_ok {w : World} (proj : ProjectConfig)
    (hok : ∀ c, w.cmdOk c = true) :
    toolchainStage proj w = (toolchainEventsOk proj w, none) := by
  cases h : proj.toolchain_urls with
  | none => simp [toolchainStage, toolchainEventsOk, h]
  | some urls =>
    simp [toolchainStage, toolchainEventsOk, h, runCmds_ok hok, hok, List.append_assoc]

theorem wildksuStage_ok {w : World} (proj : ProjectConfig)
    (hok : ∀ c, w.cmdOk c = true) :
    wildksuStage proj w = (wildksuEventsOk proj w, none) := by
  cases hd : w.defconfigExists <;>
    simp [wildksuStage, wildksuEventsOk, seq, runCmds_ok hok, hd]

theorem integratorStage_ok {w : World} (proj : ProjectConfig) (branch : String)
    (hok : ∀ c, w.cmdOk c = true) :
    integratorStage proj branch w = (integratorEventsOk proj branch w, none) := by
  by_cases hb : branch == "wildksu"
  · simp [integratorStage, integratorEventsOk, hb, wildksuStage_ok proj hok]
  · cases hs : setup_url branch with
    | none => simp [integratorStage, integratorEventsOk, hb, hs]
    | some ua =>
      obtain ⟨url, arg⟩ := ua
      simp [integratorStage, integratorEventsOk, hb, hs, runCmds_ok hok]

theorem ccacheStage_ok {w : World} (hok : ∀ c, w.cmdOk c = true) :
    ccacheStage w = (ccacheEventsOk, none) := by
  simp [ccacheStage, ccacheEventsOk, hok]

theorem defconfigStage_ok {w : World} (proj : ProjectConfig) (key : String)
    (hok : ∀ c, w.cmdOk c = true) :
    defconfigStage proj key w =
      ([Event.cmdEnv (["make"] ++ make_args key w ++ [proj.defconfig]) ksdir], none) := by
  simp [defconfigStage, hok]

theorem ltoStage_ok {w : World} (proj : ProjectConfig)
    (hok : ∀ c, w.cmdOk c = true) :
    ltoStage proj w = (ltoEventsOk proj, none) := by
  cases h : proj.lto with
  | none => simp [ltoStage, ltoEventsOk, h]
  | some l =>
    by_cases ht : l == "thin"
    · simp [ltoStage, ltoEventsOk, h, ht, runCmds_ok hok]
    · by_cases hf : l == "full" <;>
        simp [ltoStage, ltoEventsOk, h, ht, hf, runCmds_ok hok]

theorem configMutatorStage_ok {w : World} (proj : ProjectConfig) (branch : String)
    (hok : ∀ c, w.cmdOk c = true) :
    configMutatorStage proj branch w = (mutatorEventsOk proj branch, none) := by
  by_cases hb : branch == "wildksu" <;>
    simp [configMutatorStage, mutatorEventsOk, hb, hok, seq,
          runCmds_ok hok, ltoStage_ok proj hok, List.append_assoc]

theorem buildStage_ok {w : World} (proj : ProjectConfig) (key : String)
    (hok : ∀ c, w.cmdOk c = true) :
    buildStage proj key w = (buildEventsOk proj key w, none) := by
  simp [buildStage, buildEventsOk, hok]

theorem packageStage_ok {w : World} (proj : ProjectConfig) (branch : String)
    (hok : ∀ c, w.cmdOk c = true) (himg : w.imageExists = true) :
    packageStage proj branch w = (packageEventsOk proj branch w, none) := by
  simp [packageStage, packageEventsOk, hok, himg]

theorem releaseStage_ok {w : World} (proj : ProjectConfig) (branch : String)
    (rel : Bool) (hok : ∀ c, w.cmdOk c = true) (hzip : w.zipExists = true) :
    releaseStage proj branch rel w = (releaseEventsOk proj branch rel w, none) := by
  cases rel <;> simp [releaseStage, releaseEventsOk, hok, hzip]

/-- On a world where every command succeeds and the expected artifacts
exist, the pipeline completes and its trace is the concatenation of the
stage traces in program order. -/
theorem handle_build_ok {w : World} (proj : ProjectConfig) (key branch : String)
    (rel : Bool) (hok : ∀ c, w.cmdOk c = true) (hks : w.kernelSourceExists = true)
    (himg : w.imageExists = true) (hzip : w.zipExists = true) :
    handle_build proj key branch rel w =
      (toolchainEventsOk proj w ++ integratorEventsOk proj branch w ++
       [Event.cmd ["make", "kernelversion"] ksdir] ++ ccacheEventsOk ++
       [Event.cmdEnv (["make"] ++ make_args key w ++ [proj.defconfig]) ksdir] ++
       mutatorEventsOk proj branch ++ localversionEventsOk proj branch w ++
       buildEventsOk proj key w ++ packageEventsOk proj branch w ++
       releaseEventsOk proj branch rel w, none) := by
  rw [handle_build, if_pos hks, toolchainStage_ok proj hok,
      integratorStage_ok proj branch hok, ccacheStage_ok hok,
      defconfigStage_ok proj key hok, configMutatorStage_ok proj branch hok,
      buildStage_ok proj key hok, packageStage_ok proj branch hok himg,
      releaseStage_ok proj branch rel hok hzip]
  simp [seq, versionProbe, localversionStage, localversionEventsOk, List.append_assoc]

/-! ## Event classification lemmas per stage -/

/-- No integration, packaging or release command starts with the
`scripts/config` tool; concrete head checks for the wildksu batch. -/
theorem wildksuCmds_heads :
    ∀ c ∈ wildksuCmds, (c.head? == some "scripts/config") = false := by
  decide

theorem benign3_cmd (args : List String) (d : Option String)
    (h : (args.head? == some "scripts/config") = false) :
    isEnvMake (Event.cmd args d) = false ∧ isConfigEdit (Event.cmd args d) = false ∧
    isAppend (Event.cmd args d) = false := by
  refine ⟨rfl, ?_, rfl⟩
  simpa [isConfigEdit] using h

theorem toolchainEventsOk_benign (proj : ProjectConfig) (w : World) :
    ∀ e ∈ toolchainEventsOk proj w,
      isEnvMake e = false ∧ isConfigEdit e = false ∧ isAppend e = false := by
  cases h : proj.toolchain_urls with
  | none => simp [toolchainEventsOk, h]
  | some urls =>
    simp only [toolchainEventsOk, h]
    refine List.forall_mem_append.mpr ⟨List.forall_mem_append.mpr
      ⟨List.forall_mem_append.mpr ⟨?_, ?_⟩, ?_⟩, ?_⟩
    · cases htc : w.tcDownloadExists <;> simp [isEnvMake, isConfigEdit, isAppend]
    · simp [isEnvMake, isConfigEdit, isAppend]
    · intro e he
      obtain ⟨u, hu, rfl⟩ := List.mem_map.mp he
      exact benign3_cmd _ _ rfl
    · simp [isEnvMake, isConfigEdit, isAppend]

theorem integratorEventsOk_noEnvMake_noCfgEdit (proj : ProjectConfig)
    (branch : String) (w : World) :
    ∀ e ∈ integratorEventsOk proj branch w,
      isEnvMake e = false ∧ isConfigEdit e = false := by
  by_cases hb : branch == "wildksu"
  · simp only [integratorEventsOk, hb, if_true, wildksuEventsOk]
    refine List.forall_mem_append.mpr ⟨?_, ?_⟩
    · intro e he
      obtain ⟨c, hc, rfl⟩ := List.mem_map.mp he
      exact ⟨(benign3_cmd c ksdir (wildksuCmds_heads c hc)).1,
             (benign3_cmd c ksdir (wildksuCmds_heads c hc)).2.1⟩
    · cases hd : w.defconfigExists <;> simp [isEnvMake, isConfigEdit]
  · cases hs : setup_url branch with
    | none => simp [integratorEventsOk, hb, hs]
    | some ua =>
      obtain ⟨url, arg⟩ := ua
      simp only [integratorEventsOk, hb, if_false, Bool.false_eq_true, hs]
      intro e he
      simp only [List.mem_singleton] at he
      subst he
      have hb3 := benign3_cmd ["bash", "-c", setupPipe url arg] ksdir (by rfl)
      exact ⟨hb3.1, hb3.2.1⟩

theorem integratorEventsOk_noAppend (proj : ProjectConfig) (branch : String)
    (w : World) (hd : w.defconfigExists = false) :
    ∀ e ∈ integratorEventsOk proj branch w, isAppend e = false := by
  by_cases hb : branch == "wildksu"
  · simp only [integratorEventsOk, hb, if_true, wildksuEventsOk, hd]
    refine List.forall_mem_append.mpr ⟨?_, ?_⟩
    · intro e he
      obtain ⟨c, hc, rfl⟩ := List.mem_map.mp he
      exact (benign3_cmd c ksdir (wildksuCmds_heads c hc)).2.2
    · simp [isAppend]
  · cases hs : setup_url branch with
    | none => simp [integratorEventsOk, hb, hs]
    | some ua =>
      obtain ⟨url, arg⟩ := ua
      simp only [integratorEventsOk, hb, if_false, Bool.false_eq_true, hs]
      intro e he
      simp only [List.mem_singleton] at he
      subst he
      exact (benign3_cmd ["bash", "-c", setupPipe url arg] ksdir (by rfl)).2.2

theorem ccacheEventsOk_benign :
    ∀ e ∈ ccacheEventsOk,
      isEnvMake e = false ∧ isConfigEdit e = false ∧ isAppend e = false := by
  simp [ccacheEventsOk, isEnvMake, isConfigEdit, isAppend]

theorem mutatorEventsOk_noEnvMake_noAppend (proj : ProjectConfig) (branch : String) :
    ∀ e ∈ mutatorEventsOk proj branch,
      isEnvMake e = false ∧ isAppend e = false := by
  simp only [mutatorEventsOk]
  refine List.forall_mem_append.mpr ⟨List.forall_mem_append.mpr ⟨?_, ?_⟩, ?_⟩
  · by_cases hb : branch == "wildksu" <;> simp [hb, isEnvMake, isAppend]
  · intro e he
    obtain ⟨c, hc, rfl⟩ := List.mem_map.mp he
    exact ⟨rfl, rfl⟩
  · cases hl : proj.lto with
    | none => simp [ltoEventsOk, hl]
    | some l =>
      by_cases ht : l == "thin"
      · simp [ltoEventsOk, hl, ht, isEnvMake, isAppend]
      · by_cases hf : l == "full" <;> simp [ltoEventsOk, hl, ht, hf, isEnvMake, isAppend]

theorem localversionEventsOk_benign (proj : ProjectConfig) (branch : String) (w : World) :
    ∀ e ∈ localversionEventsOk proj branch w,
      isEnvMake e = false ∧ isConfigEdit e = false ∧ isAppend e = false := by
  simp only [localversionEventsOk]
  refine List.forall_mem_append.mpr ⟨?_, ?_⟩
  · simp [isEnvMake, isConfigEdit, isAppend]
  · cases hf : file_method proj <;> simp [isEnvMake, isConfigEdit, isAppend]

theorem packageEventsOk_benign (proj : ProjectConfig) (branch : String) (w : World) :
    ∀ e ∈ packageEventsOk proj branch w,
      isEnvMake e = false ∧ isConfigEdit e = false ∧ isAppend e = false := by
  simp only [packageEventsOk]
  refine List.forall_mem_append.mpr ⟨?_, ?_⟩
  · cases ha : w.ak3Exists <;> simp [isEnvMake, isConfigEdit, isAppend]
  · simp [isEnvMake, isConfigEdit, isAppend, zipCmdArgs]

theorem releaseEventsOk_benign (proj : ProjectConfig) (branch : String)
    (rel : Bool) (w : World) :
    ∀ e ∈ releaseEventsOk proj branch rel w,
      isEnvMake e = false ∧ isConfigEdit e = false ∧ isAppend e = false := by
  cases rel <;> simp [releaseEventsOk, isEnvMake, isConfigEdit, isAppend, ghCmd]

/-! ## Net configured state lemmas -/

theorem foldl_applyEdits (n : String) (l : List (String × Bool)) :
    ∀ init : Option Bool,
      l.foldl (fun acc e => if e.1 == n then some e.2 else acc) init =
        (applyEdits l n).elim init some := by
  induction l with
  | nil => intro init; rfl
  | cons e l ih =>
    intro init
    have hstep : applyEdits (e :: l) n =
        (applyEdits l n).elim (if e.1 == n then some e.2 else none) some := by
      simpa [applyEdits] using ih (if e.1 == n then some e.2 else (none : Option Bool))
    rw [List.foldl_cons, ih, hstep]
    cases happ : applyEdits l n with
    | some b => rfl
    | none =>
      by_cases he : e.1 == n <;> simp [he]

theorem applyEdits_append (l1 l2 : List (String × Bool)) (n : String) :
    applyEdits (l1 ++ l2) n = (applyEdits l2 n).elim (applyEdits l1 n) some := by
  rw [applyEdits, List.foldl_append]
  exact foldl_applyEdits n l2 _

theorem applyEdits_disables (l : List String) (n : String) :
    applyEdits (l.map (fun c => (normOpt c, false))) n =
      if n ∈ l.map normOpt then some false else none := by
  induction l with
  | nil => simp [applyEdits]
  | cons c l ih =>
    have : (c :: l).map (fun c => (normOpt c, false)) =
        [(normOpt c, false)] ++ l.map (fun c => (normOpt c, false)) := by simp
    rw [this, applyEdits_append, ih]
    by_cases hm : n ∈ l.map normOpt
    · simp [hm]
    · by_cases he : normOpt c = n
      · simp [hm, he, applyEdits]
      · have : (normOpt c == n) = false := by simp [he]
        simp [hm, applyEdits, this, he, Ne.symm he]

theorem traceEdits_append (a b : List Event) :
    traceEdits (a ++ b) = traceEdits a ++ traceEdits b := by
  simp [traceEdits]

theorem traceEdits_disableMap (l : List String) :
    traceEdits ((disableCmds l).map (fun c => Event.cmd c ksdir)) =
      l.map (fun c => (normOpt c, false)) := by
  induction l with
  | nil => rfl
  | cons c l ih =>
    have hone : eventEdits
        (Event.cmd ["scripts/config", "--file", "out/.config", "--disable", c] ksdir) =
        [(normOpt c, false)] := rfl
    simp [disableCmds, traceEdits] at ih ⊢
    simpa [hone] using ih

theorem applyEdits_ltoEventsOk (proj : ProjectConfig) (n : String)
    (h1 : n ≠ "LTO_CLANG_THIN") (h2 : n ≠ "LTO_CLANG_FULL") :
    applyEdits (traceEdits (ltoEventsOk proj)) n = none := by
  have hb1 : ("LTO_CLANG_THIN" == n) = false := by simp [Ne.symm h1]
  have hb2 : ("LTO_CLANG_FULL" == n) = false := by simp [Ne.symm h2]
  cases hl : proj.lto with
  | none => simp [ltoEventsOk, hl, traceEdits, applyEdits]
  | some l =>
    by_cases ht : l == "thin"
    · have : traceEdits [Event.cmd ltoThinCmd ksdir] =
          [("LTO_CLANG_THIN", true), ("LTO_CLANG_FULL", false)] := rfl
      simp [ltoEventsOk, hl, ht, this, applyEdits, hb1, hb2, Ne.symm h1, Ne.symm h2]
    · by_cases hf : l == "full"
      · have : traceEdits [Event.cmd ltoFullCmd ksdir] =
            [("LTO_CLANG_FULL", true), ("LTO_CLANG_THIN", false)] := rfl
        simp [ltoEventsOk, hl, ht, hf, this, applyEdits, hb1, hb2, Ne.symm h1, Ne.symm h2]
      · simp [ltoEventsOk, hl, ht, hf, traceEdits, applyEdits]

theorem applyEdits_mutator_wildksu (proj : ProjectConfig) (n : String) :
    applyEdits (traceEdits (mutatorEventsOk proj "wildksu")) n =
      (applyEdits (traceEdits (ltoEventsOk proj)) n).elim
        ((if n ∈ (disable_configs proj "wildksu").map normOpt then some false else none).elim
          (applyEdits [("KSU_MANUAL_HOOK", true), ("SUSFS", true)] n) some) some := by
  have hm : mutatorEventsOk proj "wildksu" =
      ([Event.cmd enableManualHookCmd ksdir, Event.cmd enableSusfsCmd ksdir] ++
       (disableCmds (disable_configs proj "wildksu")).map (fun c => Event.cmd c ksdir)) ++
      ltoEventsOk proj := by
    simp [mutatorEventsOk]
  have hE : traceEdits [Event.cmd enableManualHookCmd ksdir, Event.cmd enableSusfsCmd ksdir] =
      [("KSU_MANUAL_HOOK", true), ("SUSFS", true)] := by decide
  rw [hm, traceEdits_append, applyEdits_append, traceEdits_append, applyEdits_append,
      hE, traceEdits_disableMap, applyEdits_disables]

/-! ## Claim C1 -/

/-- Claim C1: for branch wildksu, once the Config Mutator completes, the
net configured state disables KSU_KPROBES_HOOK and KSU_SUSFS_SUS_SU while
KSU_MANUAL_HOOK and SUSFS stay enabled: the two force-enabled options are
not re-disabled by the subsequent disable batch (stated for profiles whose
own extra disable list does not name the two force-enabled options; the
baseline and the wildksu-forced entries never do). -/
theorem C1_wildksu_net_config_state (proj : ProjectConfig) (w : World)
    (hok : ∀ c, w.cmdOk c = true)
    (h1 : "KSU_MANUAL_HOOK" ∉ (proj.disable_security.getD []).map normOpt)
    (h2 : "SUSFS" ∉ (proj.disable_security.getD []).map normOpt) :
    applyEdits (traceEdits (configMutatorStage proj "wildksu" w).1) "KSU_MANUAL_HOOK" = some true ∧
    applyEdits (traceEdits (configMutatorStage proj "wildksu" w).1) "SUSFS" = some true ∧
    applyEdits (traceEdits (configMutatorStage proj "wildksu" w).1) "KSU_KPROBES_HOOK" = some false ∧
    applyEdits (traceEdits (configMutatorStage proj "wildksu" w).1) "KSU_SUSFS_SUS_SU" = some false := by
  rw [configMutatorStage_ok proj "wildksu" hok]
  have hdm : ∀ n : String, (disable_configs proj "wildksu").map normOpt =
      baselineDisables.map normOpt ++ (proj.disable_security.getD []).map normOpt ++
      (["KSU_KPROBES_HOOK", "KSU_SUSFS_SUS_SU"] : List String).map normOpt := by
    intro n; simp [disable_configs]
  refine ⟨?_, ?_, ?_, ?_⟩
  · rw [applyEdits_mutator_wildksu,
        applyEdits_ltoEventsOk proj _ (by decide) (by decide)]
    have hnm : "KSU_MANUAL_HOOK" ∉ (disable_configs proj "wildksu").map normOpt := by
      rw [hdm "KSU_MANUAL_HOOK"]
      simp only [List.mem_append]
      intro h
      rcases h with (h | h) | h
      · exact absurd h (by decide)
      · exact h1 h
      · exact absurd h (by decide)
    simp [hnm, Option.elim]
    decide
  · rw [applyEdits_mutator_wildksu,
        applyEdits_ltoEventsOk proj _ (by decide) (by decide)]
    have hnm : "SUSFS" ∉ (disable_configs proj "wildksu").map normOpt := by
      rw [hdm "SUSFS"]
      simp only [List.mem_append]
      intro h
      rcases h with (h | h) | h
      · exact absurd h (by decide)
      · exact h2 h
      · exact absurd h (by decide)
    simp [hnm, Option.elim]
    decide
  · rw [applyEdits_mutator_wildksu,
        applyEdits_ltoEventsOk proj _ (by decide) (by decide)]
    have hk : "KSU_KPROBES_HOOK" ∈ (disable_configs proj "wildksu").map normOpt := by
      rw [hdm "KSU_KPROBES_HOOK"]
      simp only [List.mem_append]
      exact Or.inr (by decide)
    simp [hk, Option.elim]
  · rw [applyEdits_mutator_wildksu,
        applyEdits_ltoEventsOk proj _ (by decide) (by decide)]
    have hk : "KSU_SUSFS_SUS_SU" ∈ (disable_configs proj "wildksu").map normOpt := by
      rw [hdm "KSU_SUSFS_SUS_SU"]
      simp only [List.mem_append]
      exact Or.inr (by decide)
    simp [hk, Option.elim]

/-- Claim C1 witness: the end-to-end scenario profile with one extra
profile disable, on the all-success world. -/
theorem C1_wildksu_net_config_state_witness :
    applyEdits (traceEdits (configMutatorStage richProj "wildksu" allOkWorld).1)
      "KSU_MANUAL_HOOK" = some true ∧
    applyEdits (traceEdits (configMutatorStage richProj "wildksu" allOkWorld).1)
      "SUSFS" = some true ∧
    applyEdits (traceEdits (configMutatorStage richProj "wildksu" allOkWorld).1)
      "KSU_KPROBES_HOOK" = some false ∧
    applyEdits (traceEdits (configMutatorStage richProj "wildksu" allOkWorld).1)
      "KSU_SUSFS_SUS_SU" = some false :=
  C1_wildksu_net_config_state richProj allOkWorld (fun _ => rfl) (by decide) (by decide)

/-! ## Claim C2 -/

/-- Claim C2: for every profile and branch the disable batch contains the
seven baseline entries and the profile additions; for branch wildksu the
batch is exactly baseline, additions, and the two forced entries, and the
two force-enable invocations are the first events of the Config Mutator,
before the whole disable batch. -/
theorem C2_disable_batch (proj : ProjectConfig) (branch : String) (w : World)
    (hok : ∀ c, w.cmdOk c = true) :
    (∀ b ∈ baselineDisables, b ∈ disable_configs proj branch) ∧
    (∀ d ∈ proj.disable_security.getD [], d ∈ disable_configs proj branch) ∧
    (branch = "wildksu" →
      disable_configs proj branch =
        baselineDisables ++ proj.disable_security.getD [] ++
          ["KSU_KPROBES_HOOK", "KSU_SUSFS_SUS_SU"] ∧
      configMutatorStage proj branch w =
        ([Event.cmd enableManualHookCmd ksdir, Event.cmd enableSusfsCmd ksdir] ++
         (disableCmds (disable_configs proj branch)).map (fun c => Event.cmd c ksdir) ++
         ltoEventsOk proj, none)) ∧
    (branch ≠ "wildksu" →
      disable_configs proj branch = baselineDisables ++ proj.disable_security.getD [] ∧
      configMutatorStage proj branch w =
        ((disableCmds (disable_configs proj branch)).map (fun c => Event.cmd c ksdir) ++
         ltoEventsOk proj, none)) := by
  refine ⟨?_, ?_, ?_, ?_⟩
  · intro b hb; simp [disable_configs, hb]
  · intro d hd; simp [disable_configs, hd]
  · intro hb
    subst hb
    refine ⟨by simp [disable_configs], ?_⟩
    rw [configMutatorStage_ok proj "wildksu" hok]
    simp [mutatorEventsOk, List.append_assoc]
  · intro hb
    have hbe : (branch == "wildksu") = false := by simp [hb]
    refine ⟨by simp [disable_configs, hbe], ?_⟩
    rw [configMutatorStage_ok proj branch hok]
    simp [mutatorEventsOk, hbe]

/-- Claim C2 witness: the batch for the sample profile on branch ksu and
the full wildksu mutator event list for the profile with one extra
disable. -/
theorem C2_disable_batch_witness :
    (∀ b ∈ baselineDisables, b ∈ disable_configs sampleProj "ksu") ∧
    disable_configs richProj "wildksu" =
      baselineDisables ++ ["CC_WERROR"] ++ ["KSU_KPROBES_HOOK", "KSU_SUSFS_SUS_SU"] :=
  ⟨(C2_disable_batch sampleProj "ksu" allOkWorld (fun _ => rfl)).1,
   by
    have h := ((C2_disable_batch richProj "wildksu" allOkWorld (fun _ => rfl)).2.2.1 rfl).1
    simpa using h⟩

/-! ## Claim C3 -/

/-- Claim C3 counterexample: on a fully successful concrete run the trace
contains three invocations of the build tool `make`, not exactly two: the
kernel version query `make kernelversion` is a third one, issued before
the defconfig and image invocations. -/
theorem C3_counterexample :
    ((handle_build sampleProj "device_socA" "ksu" false allOkWorld).1.countP
        isMakeInvocation) = 3 ∧
    (handle_build sampleProj "device_socA" "ksu" false allOkWorld).2 = none := by
  decide

/-- Claim C3 (amended): in every successful run exactly two make
invocations carry the composed environment — first the defconfig one,
then the image one — every Config Mutator edit to the generated `.config`
happens strictly between them, and a third, plain make invocation (the
kernel version query) precedes both. -/
theorem C3_build_invocations (proj : ProjectConfig) (key branch : String)
    (rel : Bool) (w : World) (hok : ∀ c, w.cmdOk c = true)
    (hks : w.kernelSourceExists = true) (himg : w.imageExists = true)
    (hzip : w.zipExists = true) :
    ∃ pre mid post,
      (handle_build proj key branch rel w).1 =
        pre ++ [Event.cmdEnv (["make"] ++ make_args key w ++ [proj.defconfig]) ksdir] ++
        mid ++ [Event.cmdEnv (buildCmdArgs proj key w) ksdir] ++ post ∧
      (∀ e ∈ pre, isEnvMake e = false) ∧
      (∀ e ∈ mid, isEnvMake e = false) ∧
      (∀ e ∈ post, isEnvMake e = false) ∧
      (∀ e ∈ pre, isConfigEdit e = false) ∧
      (∀ e ∈ post, isConfigEdit e = false) ∧
      Event.cmd ["make", "kernelversion"] ksdir ∈ pre := by
  refine ⟨toolchainEventsOk proj w ++ integratorEventsOk proj branch w ++
            [Event.cmd ["make", "kernelversion"] ksdir] ++ ccacheEventsOk,
          mutatorEventsOk proj branch ++ localversionEventsOk proj branch w ++
            [Event.cmd ["nproc"] none],
          (if file_method proj then [Event.writeFile "kernel_source/localversion" ""] else []) ++
            packageEventsOk proj branch w ++ releaseEventsOk proj branch rel w,
          ?_, ?_, ?_, ?_, ?_, ?_, ?_⟩
  · rw [handle_build_ok proj key branch rel hok hks himg hzip]
    simp [buildEventsOk, List.append_assoc]
  · intro e he
    simp only [List.mem_append, List.mem_singleton] at he
    rcases he with ((h | h) | h) | h
    · exact (toolchainEventsOk_benign proj w e h).1
    · exact (integratorEventsOk_noEnvMake_noCfgEdit proj branch w e h).1
    · subst h; rfl
    · exact (ccacheEventsOk_benign e h).1
  · intro e he
    simp only [List.mem_append, List.mem_singleton] at he
    rcases he with (h | h) | h
    · exact (mutatorEventsOk_noEnvMake_noAppend proj branch e h).1
    · exact (localversionEventsOk_benign proj branch w e h).1
    · subst h; rfl
  · intro e he
    simp only [List.mem_append, List.mem_singleton] at he
    rcases he with (h | h) | h
    · cases hfm : file_method proj <;> rw [hfm] at h <;> simp at h
      subst h; rfl
    · exact (packageEventsOk_benign proj branch w e h).1
    · exact (releaseEventsOk_benign proj branch rel w e h).1
  · intro e he
    simp only [List.mem_append, List.mem_singleton] at he
    rcases he with ((h | h) | h) | h
    · exact (toolchainEventsOk_benign proj w e h).2.1
    · exact (integratorEventsOk_noEnvMake_noCfgEdit proj branch w e h).2
    · subst h; rfl
    · exact (ccacheEventsOk_benign e h).2.1
  · intro e he
    simp only [List.mem_append, List.mem_singleton] at he
    rcases he with (h | h) | h
    · cases hfm : file_method proj <;> rw [hfm] at h <;> simp at h
      subst h; rfl
    · exact (packageEventsOk_benign proj branch w e h).2.1
    · exact (releaseEventsOk_benign proj branch rel w e h).2.1
  · simp

/-- Claim C3 (amended) witness: the concrete sample run. -/
theorem C3_build_invocations_witness :
    ∃ pre mid post,
      (handle_build sampleProj "device_socA" "ksu" false allOkWorld).1 =
        pre ++ [Event.cmdEnv (["make"] ++ make_args "device_socA" allOkWorld ++
                  [sampleProj.defconfig]) ksdir] ++
        mid ++ [Event.cmdEnv (buildCmdArgs sampleProj "device_socA" allOkWorld) ksdir] ++ post ∧
      (∀ e ∈ pre, isEnvMake e = false) ∧
      (∀ e ∈ mid, isEnvMake e = false) ∧
      (∀ e ∈ post, isEnvMake e = false) ∧
      (∀ e ∈ pre, isConfigEdit e = false) ∧
      (∀ e ∈ post, isConfigEdit e = false) ∧
      Event.cmd ["make", "kernelversion"] ksdir ∈ pre :=
  C3_build_invocations sampleProj "device_socA" "ksu" false allOkWorld
    (fun _ => rfl) rfl rfl rfl

/-! ## Claim C4 -/

/-- Claim C4: the variant suffix is a pure function of the branch label
matching the fixed table, every unrecognized label maps to its upper-cased
form, and the build identifier is the localversion base, a dash, and the
suffix. -/
theorem C4_variant_suffix_table :
    variant_suffix "ksu" = "KSU" ∧ variant_suffix "mksu" = "MKSU" ∧
    variant_suffix "resukisu" = "ReSuki" ∧ variant_suffix "sukisuultra" = "ReSuki" ∧
    variant_suffix "wildksu" = "WildKSU" ∧ variant_suffix "main" = "LKM" ∧
    variant_suffix "lkm" = "LKM" ∧
    (∀ b : String,
      b ∉ (["ksu", "mksu", "resukisu", "sukisuultra", "wildksu", "main", "lkm"] :
            List String) →
      variant_suffix b = upper b) ∧
    (∀ (proj : ProjectConfig) (b : String),
      localversion proj b = proj.localversion_base ++ "-" ++ variant_suffix b) := by
  refine ⟨by decide, by decide, by decide, by decide, by decide, by decide, by decide,
          ?_, fun proj b => rfl⟩
  intro b hb
  simp only [List.mem_cons, List.not_mem_nil, or_false, not_or] at hb
  obtain ⟨h1, h2, h3, h4, h5, h6, h7⟩ := hb
  simp [variant_suffix, h1, h2, h3, h4, h5, h6, h7]

/-- Claim C4 witness: an unrecognized branch label falls back to its
upper-cased form. -/
theorem C4_variant_suffix_table_witness : variant_suffix "dev" = upper "dev" :=
  C4_variant_suffix_table.2.2.2.2.2.2.2.1 "dev" (by decide)

/-! ## Claim C5 -/

/-- Claim C5: the output archive name is exactly
prefix-version-cleanlocalversion-timestamp.zip, where the prefix defaults
to Kernel, the localversion has its leading dashes stripped, and the name
is the one the zip invocation of the packaging stage writes one level
above the template directory. -/
theorem C5_archive_name (proj : ProjectConfig) (branch : String) (w : World)
    (hok : ∀ c, w.cmdOk c = true) (himg : w.imageExists = true) :
    final_zip_name proj branch w =
      (proj.zip_name_pre.getD "Kernel") ++ "-" ++ kernel_version w ++ "-" ++
      (⟨(localversion proj branch).data.dropWhile (fun c => c == '-')⟩ : String) ++ "-" ++
      w.dateStr ++ ".zip" ∧
    Event.cmd (zipCmdArgs proj branch w) (some "AnyKernel3") ∈ (packageStage proj branch w).1 ∧
    (zipCmdArgs proj branch w)[2]? = some ("../" ++ final_zip_name proj branch w) := by
  refine ⟨rfl, ?_, rfl⟩
  rw [packageStage_ok proj branch hok himg]
  simp [packageEventsOk]

/-- Claim C5 witness: the sample run, whose archive name evaluates to the
concrete string Kernel--MyKernel-KSU-20260101-0101.zip. -/
theorem C5_archive_name_witness :
    final_zip_name sampleProj "ksu" allOkWorld =
      "Kernel" ++ "-" ++ kernel_version allOkWorld ++ "-" ++
      (⟨(localversion sampleProj "ksu").data.dropWhile (fun c => c == '-')⟩ : String) ++ "-" ++
      allOkWorld.dateStr ++ ".zip" ∧
    final_zip_name sampleProj "ksu" allOkWorld = "Kernel--MyKernel-KSU-20260101-0101.zip" :=
  ⟨(C5_archive_name sampleProj "ksu" allOkWorld (fun _ => rfl) rfl).1, by decide⟩

/-! ## Claim C6 -/

theorem foldl_prepend_eq (f : String → String) (es : List String) :
    ∀ init : String,
      es.foldl (fun acc e => f e ++ ":" ++ acc) init = prependAll (es.reverse.map f) init := by
  induction es with
  | nil => intro init; rfl
  | cons e es ih =>
    intro init
    rw [List.foldl_cons, ih, List.reverse_cons, List.map_append]
    simp [prependAll, List.foldr_append]

/-- Claim C6: when the profile lists explicit sub-paths, the composed
search path prepends each listed segment in order, each directly in front
of everything accumulated so far, so the final layout is the reversed
listed segments followed by the inherited PATH; with no explicit list but
a configured toolchain prefix only the conventional bin sub-path is
prepended; otherwise the inherited PATH is unchanged. -/
theorem C6_path_composition (proj : ProjectConfig) (w : World) :
    (∀ es, proj.toolchain_path_exports = some es →
      composedPath proj w =
        prependAll
          (es.reverse.map (fun e =>
            pathJoin (pathJoin w.currentDir (proj.toolchain_path_pre.getD "")) e))
          w.envPATH) ∧
    (proj.toolchain_path_exports = none → proj.toolchain_path_pre.getD "" ≠ "" →
      composedPath proj w =
        pathJoin (pathJoin w.currentDir (proj.toolchain_path_pre.getD "")) "bin" ++ ":" ++
          w.envPATH) ∧
    (proj.toolchain_path_exports = none → proj.toolchain_path_pre.getD "" = "" →
      composedPath proj w = w.envPATH) := by
  refine ⟨?_, ?_, ?_⟩
  · intro es hes
    simp only [composedPath, hes]
    exact foldl_prepend_eq _ es _
  · intro hes hpre
    simp [composedPath, hes, hpre]
  · intro hes hpre
    simp [composedPath, hes, hpre]

/-- A sample profile with a toolchain prefix and two explicit export
sub-paths. -/
def exportsProj : ProjectConfig :=
  { defconfig := "socA_defconfig"
    localversion_base := "-MyKernel"
    repo := "org/repo"
    toolchain_path_pre := some "clang"
    toolchain_path_exports := some ["bin", "lib"] }

/-- Claim C6 witness: two listed sub-paths yield the reversed listed
segments in front of the inherited PATH. -/
theorem C6_path_composition_witness :
    composedPath exportsProj allOkWorld =
      prependAll
        ((["bin", "lib"] : List String).reverse.map (fun e =>
          pathJoin (pathJoin allOkWorld.currentDir
            (exportsProj.toolchain_path_pre.getD "")) e))
        allOkWorld.envPATH ∧
    composedPath exportsProj allOkWorld = "/work/clang/lib:/work/clang/bin:/usr/bin" :=
  ⟨(C6_path_composition exportsProj allOkWorld).1 ["bin", "lib"] rfl, by decide⟩

/-! ## Claim C7 -/

set_option maxRecDepth 8192 in
/-- Claim C7 counterexample: with a present but empty URL list the
Toolchain Provisioner does mutate the filesystem — it creates and deletes
the scratch download directory and runs the extraction script. -/
theorem C7_counterexample :
    Event.createDirAll tcDir ∈ (toolchainStage emptyUrlProj allOkWorld).1 ∧
    Event.removeDirAll tcDir ∈ (toolchainStage emptyUrlProj allOkWorld).1 ∧
    Event.cmd ["bash", "-c", extract_script] (some tcDir) ∈
      (toolchainStage emptyUrlProj allOkWorld).1 := by
  decide

/-- Claim C7 (amended): with an absent URL list the Toolchain Provisioner
performs no filesystem mutation at all; with a present but empty URL list
it still wipes, recreates and deletes the scratch directory and runs the
extraction script, performing no downloads. -/
theorem C7_no_urls_no_mutation (proj : ProjectConfig) (w : World) :
    (proj.toolchain_urls = none → toolchainStage proj w = ([], none)) ∧
    (proj.toolchain_urls = some [] → (∀ c, w.cmdOk c = true) →
      toolchainStage proj w =
        ((if w.tcDownloadExists then [Event.removeDirAll tcDir] else []) ++
         [Event.createDirAll tcDir, Event.cmd ["bash", "-c", extract_script] (some tcDir),
          Event.removeDirAll tcDir], none)) := by
  refine ⟨?_, ?_⟩
  · intro h
    simp [toolchainStage, h]
  · intro h hok
    rw [toolchainStage_ok proj hok]
    simp [toolchainEventsOk, h]

/-- Claim C7 (amended) witness: the sample profile carries no URL list
and provisioning is a complete no-op. -/
theorem C7_no_urls_no_mutation_witness :
    toolchainStage sampleProj allOkWorld = ([], none) :=
  (C7_no_urls_no_mutation sampleProj allOkWorld).1 rfl

/-! ## Claim C8 -/

theorem wildksuStage_fail (proj : ProjectConfig) (w : World) (c : List String)
    (hc : c ∈ wildksuCmds) (hf : w.cmdOk c = false) :
    ((wildksuStage proj w).2).isSome = true := by
  unfold wildksuStage
  exact seq_snd_isSome_left (runCmds_fail hc hf)

/-- Claim C8: during wildksu integration a missing defconfig file only
downgrades the config-append step to a warning — the appended directives
are skipped, no append happens anywhere in the run, and the pipeline still
completes — whereas the failure of any of the integration commands
(setup script, clone, copies, patch applications, hook download, text
edits) aborts the pipeline. -/
theorem C8_defconfig_append_best_effort (proj : ProjectConfig) (key : String)
    (rel : Bool) (w : World) (hok : ∀ c, w.cmdOk c = true)
    (hks : w.kernelSourceExists = true) (himg : w.imageExists = true)
    (hzip : w.zipExists = true) (hd : w.defconfigExists = false) :
    ((handle_build proj key "wildksu" rel w).2 = none ∧
     Event.warn (wildksuWarnMsg proj) ∈ (handle_build proj key "wildksu" rel w).1 ∧
     (∀ e ∈ (handle_build proj key "wildksu" rel w).1, isAppend e = false)) ∧
    (∀ c ∈ wildksuCmds, ∀ w2 : World, w2.kernelSourceExists = true →
      w2.cmdOk c = false →
      ((handle_build proj key "wildksu" rel w2).2).isSome = true) := by
  constructor
  · rw [handle_build_ok proj key "wildksu" rel hok hks himg hzip]
    have hwarn : Event.warn (wildksuWarnMsg proj) ∈ integratorEventsOk proj "wildksu" w := by
      simp [integratorEventsOk, wildksuEventsOk, hd]
    refine ⟨rfl, ?_, ?_⟩
    · simp only [List.mem_append]
      exact Or.inl (Or.inl (Or.inl (Or.inl (Or.inl (Or.inl (Or.inl (Or.inl
        (Or.inr hwarn))))))))
    · intro e he
      simp only [List.mem_append, List.mem_singleton] at he
      rcases he with ((((((((hT | hI) | hkv) | hCC) | hdc) | hM) | hL) | hB) | hP) | hR
      · exact (toolchainEventsOk_benign proj w e hT).2.2
      · exact integratorEventsOk_noAppend proj "wildksu" w hd e hI
      · subst hkv; rfl
      · exact (ccacheEventsOk_benign e hCC).2.2
      · subst hdc; rfl
      · exact (mutatorEventsOk_noEnvMake_noAppend proj "wildksu" e hM).2
      · exact (localversionEventsOk_benign proj "wildksu" w e hL).2.2
      · simp only [buildEventsOk] at hB
        rcases List.mem_append.mp hB with hB | hB
        · rcases List.mem_cons.mp hB with hB | hB
          · subst hB; rfl
          · rcases List.mem_cons.mp hB with hB | hB
            · subst hB; rfl
            · simp at hB
        · cases hfm : file_method proj <;> rw [hfm] at hB <;> simp at hB
          subst hB; rfl
      · exact (packageEventsOk_benign proj "wildksu" w e hP).2.2
      · exact (releaseEventsOk_benign proj "wildksu" rel w e hR).2.2
  · intro c hc w2 hks2 hf2
    rw [handle_build, if_pos hks2]
    cases ht : (toolchainStage proj w2).2 with
    | some e =>
      apply seq_snd_isSome_left
      simp [ht]
    | none =>
      have hIeq : integratorStage proj "wildksu" w2 = wildksuStage proj w2 := rfl
      have hI : ((integratorStage proj "wildksu" w2).2).isSome = true := by
        rw [hIeq]
        exact wildksuStage_fail proj w2 c hc hf2
      rw [seq_of_ok ht]
      exact seq_snd_isSome_left hI

/-- Claim C8 witness: the sample wildksu run with a missing defconfig
completes with the warning, and the same run with a failing SUSFS clone
aborts. -/
theorem C8_defconfig_append_best_effort_witness :
    (handle_build sampleProj "device_socA" "wildksu" false noDefconfigWorld).2 = none ∧
    Event.warn (wildksuWarnMsg sampleProj) ∈
      (handle_build sampleProj "device_socA" "wildksu" false noDefconfigWorld).1 ∧
    (((handle_build sampleProj "device_socA" "wildksu" false
        { noDefconfigWorld with
          cmdOk := fun c => !(c == ["git", "clone", "-b", "gki-android13-5.15",
            "--depth=1", "https://gitlab.com/simonpunk/susfs4ksu.git", "susfs4ksu"]) }).2).isSome
      = true) :=
  ⟨((C8_defconfig_append_best_effort sampleProj "device_socA" false noDefconfigWorld
      (fun _ => rfl) rfl rfl rfl rfl).1).1,
   ((C8_defconfig_append_best_effort sampleProj "device_socA" false noDefconfigWorld
      (fun _ => rfl) rfl rfl rfl rfl).1).2.1,
   (C8_defconfig_append_best_effort sampleProj "device_socA" false noDefconfigWorld
      (fun _ => rfl) rfl rfl rfl rfl).2
     ["git", "clone", "-b", "gki-android13-5.15", "--depth=1",
      "https://gitlab.com/simonpunk/susfs4ksu.git", "susfs4ksu"]
     (by decide) _ rfl (by decide)⟩

/-! ## Claim C9 -/

theorem replaceFirst_of_not_contains (pat repl l : List Char)
    (h : containsSub pat l = false) : replaceFirst pat repl l = l := by
  induction l with
  | nil => rfl
  | cons c rest ih =>
    simp only [containsSub, Bool.or_eq_false_iff] at h
    simp [replaceFirst, h.1, ih h.2]

/-- Claim C9: when the verbatim anchor line is absent from the target
file, the wildksu relocation step is a silent no-op — the third text edit
leaves the file exactly as the two deletes left it, the guarded
flag-accumulation clause appears on no line of the result, and the
integration stage still completes without error. -/
theorem C9_anchor_absent_noop (file : List (List Char)) (proj : ProjectConfig)
    (w : World) (hok : ∀ c, w.cmdOk c = true)
    (hanchor : ∀ l ∈ file, containsSub anchor_line l = false) :
    relocationEdit file = sedDeleteMatching sed2_pat (sedDeleteMatching sed1_pat file) ∧
    (∀ l ∈ relocationEdit file, containsSub sed2_pat l = false) ∧
    (wildksuStage proj w).2 = none := by
  have hsub : ∀ l ∈ sedDeleteMatching sed2_pat (sedDeleteMatching sed1_pat file),
      containsSub anchor_line l = false := by
    intro l hl
    exact hanchor l (List.mem_filter.mp (List.mem_filter.mp hl).1).1
  have hid : relocationEdit file =
      sedDeleteMatching sed2_pat (sedDeleteMatching sed1_pat file) := by
    unfold relocationEdit sedSubstFirst
    have hcong : ∀ l ∈ sedDeleteMatching sed2_pat (sedDeleteMatching sed1_pat file),
        replaceFirst anchor_line (anchor_line ++ hook_clause) l = id l := by
      intro l hl
      exact replaceFirst_of_not_contains _ _ l (hsub l hl)
    rw [List.map_congr_left hcong, List.map_id]
  refine ⟨hid, ?_, ?_⟩
  · intro l hl
    rw [hid] at hl
    have := (List.mem_filter.mp hl).2
    simpa using this
  · unfold wildksuStage
    rw [runCmds_ok hok]
    cases hd : w.defconfigExists <;> simp [seq, hd]

/-- Claim C9 witness: a file without the anchor line passes through the
relocation step untouched by the third edit and the stage completes. -/
theorem C9_anchor_absent_noop_witness :
    relocationEdit [String.data "int x;"] =
      sedDeleteMatching sed2_pat (sedDeleteMatching sed1_pat [String.data "int x;"]) ∧
    (wildksuStage sampleProj allOkWorld).2 = none :=
  ⟨(C9_anchor_absent_noop [String.data "int x;"] sampleProj allOkWorld
      (fun _ => rfl) (by decide)).1,
   (C9_anchor_absent_noop [String.data "int x;"] sampleProj allOkWorld
      (fun _ => rfl) (by decide)).2.2⟩

/-! ## Claim C10 -/

theorem splitOnChar_ne_nil (c : Char) (l : List Char) : splitOnChar c l ≠ [] := by
  cases l with
  | nil => simp [splitOnChar]
  | cons x xs =>
    unfold splitOnChar
    cases h : splitOnChar c xs with
    | nil => simp
    | cons y ys =>
      by_cases hx : (x == c) = true <;> simp [hx]

theorem splitOnChar_no_sep (c : Char) (l : List Char) (h : c ∉ l) :
    splitOnChar c l = [l] := by
  induction l with
  | nil => rfl
  | cons x xs ih =>
    simp only [List.mem_cons, not_or] at h
    have hxc : (x == c) = false := beq_eq_false_iff_ne.mpr (fun he => h.1 he.symm)
    unfold splitOnChar
    rw [ih h.2]
    simp [hxc]

theorem splitOnChar_sep_append (c : Char) (a rest : List Char) (h : c ∉ a) :
    splitOnChar c (a ++ c :: rest) = a :: splitOnChar c rest := by
  induction a with
  | nil =>
    simp only [List.nil_append]
    conv_lhs => rw [splitOnChar]
    cases hs : splitOnChar c rest with
    | nil => exact absurd hs (splitOnChar_ne_nil c rest)
    | cons y ys => simp [hs]
  | cons x a ih =>
    simp only [List.mem_cons, not_or] at h
    have hxc : (x == c) = false := beq_eq_false_iff_ne.mpr (fun he => h.1 he.symm)
    have hrec := ih h.2
    rw [List.cons_append]
    conv_lhs => rw [splitOnChar]
    rw [hrec]
    simp [hxc]

theorem target_soc_no_underscore (key : String) (h : '_' ∉ key.data) :
    target_soc key = "unknown" := by
  unfold target_soc
  rw [splitOnChar_no_sep _ _ h]
  rfl

theorem target_soc_between (a b c : List Char) (ha : '_' ∉ a) (hb : '_' ∉ b) :
    target_soc ⟨a ++ '_' :: (b ++ '_' :: c)⟩ = ⟨b⟩ := by
  unfold target_soc
  show (match (splitOnChar '_' (a ++ '_' :: (b ++ '_' :: c)))[1]? with
        | some seg => (⟨seg⟩ : String)
        | none => "unknown") = ⟨b⟩
  rw [splitOnChar_sep_append _ a _ ha, splitOnChar_sep_append _ b _ hb]
  simp

/-- Claim C10: the TARGET_SOC token is the key segment strictly between
the first and second underscore; a key without any underscore puts
TARGET_SOC=unknown into the make arguments and the pipeline still
completes without error. -/
theorem C10_target_soc_token :
    (∀ a b c : List Char, '_' ∉ a → '_' ∉ b →
      target_soc ⟨a ++ '_' :: (b ++ '_' :: c)⟩ = ⟨b⟩) ∧
    (∀ key : String, '_' ∉ key.data → target_soc key = "unknown") ∧
    (∀ (key : String) (w : World), '_' ∉ key.data →
      "TARGET_SOC=unknown" ∈ make_args key w) ∧
    (∀ (proj : ProjectConfig) (key branch : String) (rel : Bool) (w : World),
      (∀ c, w.cmdOk c = true) → w.kernelSourceExists = true →
      w.imageExists = true → w.zipExists = true →
      (handle_build proj key branch rel w).2 = none) := by
  refine ⟨fun a b c ha hb => target_soc_between a b c ha hb,
          fun key h => target_soc_no_underscore key h, ?_, ?_⟩
  · intro key w h
    have hu := target_soc_no_underscore key h
    have happ : "TARGET_SOC=" ++ "unknown" = "TARGET_SOC=unknown" := rfl
    simp [make_args, hu, happ]
  · intro proj key branch rel w hok hks himg hzip
    rw [handle_build_ok proj key branch rel hok hks himg hzip]

/-- Claim C10 witness: a two-underscore key yields the middle segment, an
underscore-free key yields the fallback token in the make arguments. -/
theorem C10_target_soc_token_witness :
    target_soc "device_socA" = "socA" ∧
    target_soc "devicekey" = "unknown" ∧
    "TARGET_SOC=unknown" ∈ make_args "devicekey" allOkWorld :=
  ⟨by
    have h := C10_target_soc_token.1 "device".data "socA".data [] (by decide) (by decide)
    simpa using h,
   C10_target_soc_token.2.1 "devicekey" (by decide),
   C10_target_soc_token.2.2.1 "devicekey" allOkWorld (by decide)⟩
